import Mathlib

/-!
Verification development for the githubfolio repository.

The TypeScript source is shallowly embedded in Lean: effectful page-level
aggregation functions become pure functions of the outcomes of their
network calls, JavaScript strings stay strings, nullable values become
Option, ISO-8601 timestamps are modelled by their numeric time values
(as produced by Date.getTime), and JavaScript number arithmetic in the
language-percentage computation is modelled exactly, with NaN and the
infinities made explicit.
-/

/-- JavaScript truthiness of a nullable string: undefined, null and the
empty string are falsy. -/
def jsTruthy : Option String → Bool
  | none => false
  | some s => !(s == "")

/-- JavaScript expression a or-else b on nullable strings: the left operand
when it is truthy, otherwise the right operand. -/
def jsOr (a b : Option String) : Option String :=
  if jsTruthy a then a else b

namespace GithubService

/-- lib/githubService.ts getGitHubToken: the environment token
(GITHUB_ACCESS_TOKEN) always wins when truthy; otherwise the caller
supplied client token when truthy; otherwise null. -/
def getGitHubToken (serverToken clientToken : Option String) : Option String :=
  if jsTruthy serverToken then serverToken
  else if jsTruthy clientToken then clientToken
  else none

end GithubService

namespace GithubToken

/-- lib/githubToken.ts getGitHubToken: on the server the environment token
or null; on the client the public environment token when truthy, otherwise
whatever localStorage holds (null when absent). -/
def getGitHubToken (isServer : Bool) (serverEnv publicEnv storedToken : Option String) :
    Option String :=
  if isServer then
    (if jsTruthy serverEnv then serverEnv else none)
  else if jsTruthy publicEnv then publicEnv
  else storedToken

end GithubToken

/-- The REST repository shape (types.ts Repository), restricted to the fields
the aggregation logic reads.  ISO-8601 timestamp strings are modelled by
their numeric time values (Date.getTime); the GitHub API always returns
well-formed non-empty timestamps, so string truthiness on them never fires. -/
structure Repo where
  name : String
  fork : Bool
  stargazers_count : Nat
  forks_count : Nat
  created_at : Nat
  updated_at : Nat
  pushed_at : Nat
  homepage : Option String
  language : Option String
  topics : List String
deriving DecidableEq

/-- The partial GraphQL pinned-item shape returned by the pinnedItems query
in app/[username]/page.tsx. -/
structure PinnedItem where
  name : String
  description : Option String
  url : String
  stargazerCount : Nat
  forkCount : Nat
  primaryLanguage : Option String
  topics : List String
  ownerLogin : String
  ownerAvatarUrl : String
deriving DecidableEq

/-- Stable insertion of an element into a list sorted descending by key:
the inserted element goes before the first strictly smaller key, after
equal keys already present. -/
def insertDescBy {α : Type} (key : α → Nat) (r : α) : List α → List α
  | [] => [r]
  | x :: xs => if key r < key x then x :: insertDescBy key r xs else r :: x :: xs

/-- Stable sort, descending by a Nat key: the model of the JavaScript
stable Array.prototype.sort with comparator (a, b) => key(b) - key(a). -/
def sortDescBy {α : Type} (key : α → Nat) : List α → List α
  | [] => []
  | r :: rs => insertDescBy key r (sortDescBy key rs)

/-- One step of insertion into a JavaScript Map keyed by a string: the
element is appended only when no element with its key is present (the
source code guards every set with a has check). -/
def insertBy {α : Type} (key : α → String) (acc : List α) (c : α) : List α :=
  if acc.any (fun x => key x == key c) then acc else acc ++ [c]

/-- Keep the first element of every key class, in first-appearance order. -/
def dedupByFirst {α : Type} (key : α → String) : List α → List α
  | [] => []
  | c :: rest => c :: (dedupByFirst key rest).filter (fun x => !(key x == key c))

/-- app/[username]/page.tsx lines 183 to 190: languages Set built by a
forEach over the repository list, guarded by JavaScript truthiness of
repo.language, then Array.from(...).slice(0, 6). -/
def extractSkills (reposData : List Repo) : List String :=
  (reposData.foldl
    (fun acc r =>
      match r.language with
      | some l => if l == "" then acc else insertBy id acc l
      | none => acc)
    []).take 6

/-- The sequence of languages the skills loop actually adds to the Set:
every repository language that passes the JavaScript truthiness guard, in
repository order. -/
def truthyLangs (reposData : List Repo) : List String :=
  reposData.filterMap (fun r =>
    match r.language with
    | some l => if l == "" then none else some l
    | none => none)

/-- app/[username]/page.tsx lines 125 to 169: reconcile one GraphQL pinned
item against the REST repository list, matched by exact repository name;
REST-only fields fall back to the current time and an absent homepage
when no match is found.  now is the numeric value of new Date(). -/
def formatPinnedItem (reposData : List Repo) (now : Nat) (item : PinnedItem) : Repo :=
  let repoDetails := reposData.find? (fun repo => repo.name == item.name)
  { name := item.name
    fork := false
    stargazers_count := item.stargazerCount
    forks_count := item.forkCount
    created_at := match repoDetails with | some rd => rd.created_at | none => now
    updated_at := match repoDetails with | some rd => rd.updated_at | none => now
    pushed_at := match repoDetails with | some rd => rd.pushed_at | none => now
    homepage := match repoDetails with
      | some rd => (if jsTruthy rd.homepage then rd.homepage else none)
      | none => none
    language := (match item.primaryLanguage with
      | some l => if l == "" then none else some l
      | none => none)
    topics := item.topics }

/-- Outcome of the GraphQL pinned-items stage: error means the inner try
block threw (the fetch rejected or the body failed to parse); ok carries
the parsed pinned-item list, which is empty whenever the response had no
data.user.pinnedItems.nodes (for example on an unauthenticated 401 body). -/
abbrev GraphqlOutcome := Except Unit (List PinnedItem)

/-- The profile fetch response status line. -/
structure HttpResp where
  ok : Bool
  status : Nat
deriving DecidableEq

/-- The user profile body, restricted to what the aggregation stores. -/
structure GitHubUserM where
  login : String
deriving DecidableEq

/-- The observable result of one run of fetchGitHubProfile in
app/[username]/page.tsx: the final component state plus which outbound
calls the run issued. -/
structure ProfileRun where
  error : Option String
  userData : Option GitHubUserM
  repos : List Repo
  pinnedRepos : List Repo
  skills : List String
  reposFetchIssued : Bool
  graphqlIssued : Bool
  graphqlAuthHeader : Option String
deriving DecidableEq

/-- app/[username]/page.tsx fetchGitHubProfile, as a function of the
outcomes of its network calls.  clientToken is localStorage github_token,
envPublicToken is NEXT_PUBLIC_GITHUB_ACCESS_TOKEN.  A non-ok profile
response throws before the repository fetch; otherwise the repository
list is read, the GraphQL pinned query is issued unconditionally (its
Authorization header interpolates the token expression, which renders as
the literal text undefined when both sources are absent), a thrown
GraphQL stage falls back to the non-fork star-sorted top 6, and skills
are derived from the repository list. -/
def fetchGitHubProfile (clientToken envPublicToken : Option String)
    (userResp : HttpResp) (user : GitHubUserM) (reposData : List Repo)
    (graphql : GraphqlOutcome) (now : Nat) : ProfileRun :=
  if !userResp.ok then
    { error := some ("User not found (" ++ toString userResp.status ++ ")")
      userData := none
      repos := []
      pinnedRepos := []
      skills := []
      reposFetchIssued := false
      graphqlIssued := false
      graphqlAuthHeader := none }
  else
    let tokenText : String :=
      match jsOr clientToken envPublicToken with
      | some t => t
      | none => "undefined"
    let pinned : List Repo :=
      match graphql with
      | Except.ok items => items.map (formatPinnedItem reposData now)
      | Except.error _ =>
          (sortDescBy (fun r => r.stargazers_count)
            (reposData.filter (fun r => !r.fork))).take 6
    { error := none
      userData := some user
      repos := reposData
      pinnedRepos := pinned
      skills := extractSkills reposData
      reposFetchIssued := true
      graphqlIssued := true
      graphqlAuthHeader := some ("Bearer " ++ tokenText) }

/-- The featured-projects outcome the page renders: an explicit
no-repositories state when the REST list is empty, otherwise a list of
featured repositories. -/
inductive FeaturedOutcome where
  | noRepos
  | featured (repos : List Repo)
deriving DecidableEq

/-- app/[username]/page.tsx lines 530 to 632: the render-time fallback
chain.  Empty REST list gives the explicit no-repositories state; empty
pinned list gives the non-fork repositories sorted descending by
pushed_at truncated to 4; otherwise the pinned list is shown. -/
def featuredFor (run : ProfileRun) : FeaturedOutcome :=
  if run.repos.isEmpty then FeaturedOutcome.noRepos
  else if run.pinnedRepos.isEmpty then
    FeaturedOutcome.featured
      ((sortDescBy (fun r => r.pushed_at)
        (run.repos.filter (fun r => !r.fork))).take 4)
  else FeaturedOutcome.featured run.pinnedRepos

/-- components/PinnedRepos.tsx lines 563 to 588: the GraphQL pinned query
is issued only when a token resolved (environment token or-else the
caller token, by JavaScript truthiness); the returned value is the
Authorization header of the issued request, or none when no request is
issued. -/
def pinnedReposGraphQLAuth (envToken clientToken : Option String) : Option String :=
  match jsOr envToken clientToken with
  | some t => if t == "" then none else some ("bearer " ++ t)
  | none => none

/-- A candidate as produced by one discovery strategy in
components/SimilarProfiles.tsx (login, avatar, profile url). -/
structure RawCand where
  login : String
  avatar_url : String
  html_url : String
deriving DecidableEq

/-- The SimilarUser record of components/SimilarProfiles.tsx. -/
structure SimilarUser where
  login : String
  avatar_url : String
  html_url : String
  name : Option String
  similarity_reason : String
deriving DecidableEq

/-- One strategy's insertion loop: skip the source user's own login, then
set into the Map only when the login is absent, with the strategy's
reason string and a null display name. -/
def addCands (selfLogin reason : String)
    (acc : List SimilarUser) (cands : List RawCand) : List SimilarUser :=
  cands.foldl
    (fun acc c =>
      if c.login == selfLogin then acc
      else
        insertBy SimilarUser.login acc
          { login := c.login
            avatar_url := c.avatar_url
            html_url := c.html_url
            name := none
            similarity_reason := reason })
    acc

/-- The deduplicated Map contents after the three strategies ran in their
source order (language contributors, then topic owners, then
second-degree follows). -/
def mergeSimilar (selfLogin : String) (s1 s2 s3 : List RawCand)
    (r1 r2 r3 : String) : List SimilarUser :=
  addCands selfLogin r3 (addCands selfLogin r2 (addCands selfLogin r1 [] s1) s2) s3

/-- components/SimilarProfiles.tsx lines 202 to 233: slice the merged map
to 6 candidates, then enrich each with a display name via one profile
fetch.  enrich login = none models a failed fetch (non-ok response or
thrown), which leaves the candidate unchanged; some nm models an ok
response whose body carried display name nm (itself nullable). -/
def findSimilarProfiles (selfLogin : String) (s1 s2 s3 : List RawCand)
    (r1 r2 r3 : String) (enrich : String → Option (Option String)) : List SimilarUser :=
  ((mergeSimilar selfLogin s1 s2 s3 r1 r2 r3).take 6).map
    (fun su =>
      match enrich su.login with
      | some nm => { su with name := nm }
      | none => su)

/-- The discovery stream of one strategy after the skip-self guard, tagged
with that strategy's reason string: the sequence of set attempts the
strategy makes against the shared Map. -/
def taggedCands (selfLogin : String) (s : List RawCand) (reason : String) :
    List SimilarUser :=
  (s.filter (fun c => !(c.login == selfLogin))).map
    (fun c =>
      { login := c.login
        avatar_url := c.avatar_url
        html_url := c.html_url
        name := none
        similarity_reason := reason })

/-- The repository shape read by components/ActivityGraph.tsx; pushed_at
is kept as its calendar year and month (getFullYear, getMonth() + 1). -/
structure ARepo where
  name : String
  full_name : String
  fork : Bool
  pushedYear : Nat
  pushedMonth : Nat
deriving DecidableEq

/-- Whether one repository's participation statistic is usable: the fetch
succeeded and the owner week counts contain a non-zero entry.  p maps a
repository full name to its fetched owner array, none meaning the fetch
failed or returned non-ok. -/
def pickParticipation (p : String → Option (List Nat)) (r : ARepo) :
    Option (String × List Nat) :=
  match p r.full_name with
  | some owner => if owner.any (fun v => 0 < v) then some (r.name, owner) else none
  | none => none

/-- components/ActivityGraph.tsx lines 337 to 370: the for loop over the
non-fork repositories, bounded by the fuel argument, breaking at the
first repository with non-zero owner participation.  Returns the found
repository (name and owner weeks) and the list of repositories whose
participation endpoint was consulted, in consultation order. -/
def scanRepos (p : String → Option (List Nat)) :
    List ARepo → Nat → Option (String × List Nat) × List String
  | _, 0 => (none, [])
  | [], _ => (none, [])
  | r :: rest, n + 1 =>
    match p r.full_name with
    | some owner =>
      if owner.any (fun v => 0 < v) then (some (r.name, owner), [r.full_name])
      else
        let out := scanRepos p rest n
        (out.1, r.full_name :: out.2)
    | none =>
      let out := scanRepos p rest n
      (out.1, r.full_name :: out.2)

/-- The consultations a first-match scan performs on a repository list:
every repository up to and including the first hit, all of them when
there is no hit. -/
def consultedTrace (p : String → Option (List Nat)) : List ARepo → List String
  | [] => []
  | r :: rest =>
    if (pickParticipation p r).isSome then [r.full_name]
    else r.full_name :: consultedTrace p rest

/-- String(month).padStart(2, the zero character). -/
def padMonth (m : Nat) : String :=
  if m < 10 then "0" ++ toString m else toString m

/-- The bucket key of one repository's push timestamp. -/
def monthKey (r : ARepo) : String :=
  toString r.pushedYear ++ "-" ++ padMonth r.pushedMonth

/-- activityMap[dateKey] = (activityMap[dateKey] or 0) + 1, on an
insertion-ordered string-keyed object modelled as an association list. -/
def bumpKey (acc : List (String × Nat)) (k : String) : List (String × Nat) :=
  if acc.any (fun kv => kv.1 == k) then
    acc.map (fun kv => if kv.1 == k then (kv.1, kv.2 + 1) else kv)
  else acc ++ [(k, 1)]

/-- Read a key's count out of the association list. -/
def lookupCount (m : List (String × Nat)) (k : String) : Nat :=
  match m.find? (fun kv => kv.1 == k) with
  | some kv => kv.2
  | none => 0

/-- Stable ascending insertion on strings (lexicographic order, which on
the zero-padded year-month keys coincides with chronological order). -/
def insertAscStr (k : String) : List String → List String
  | [] => [k]
  | x :: xs => if x < k then x :: insertAscStr k xs else k :: x :: xs

/-- Object.keys(...).sort() on string keys. -/
def sortStrings : List String → List String
  | [] => []
  | k :: ks => insertAscStr k (sortStrings ks)

/-- components/ActivityGraph.tsx lines 372 to 399: bucket every fetched
repository's push timestamp by calendar month, sort the bucket keys, and
keep the last (at most) 12 buckets, as slice(-12) does. -/
def monthlyBuckets (repos : List ARepo) : List (String × Nat) :=
  let activityMap := repos.foldl (fun acc r => bumpKey acc (monthKey r)) []
  let formatted := (sortStrings (activityMap.map (fun kv => kv.1))).map
    (fun k => (k, lookupCount activityMap k))
  formatted.drop (formatted.length - 12)

/-- The activity view states of components/ActivityGraph.tsx: a failed
repository fetch sets the error state; an empty list (or a list with no
non-fork entries) sets the explicit empty-activity state; otherwise
either a participation result or the monthly fallback. -/
inductive ActivityOutcome where
  | fetchError
  | empty
  | participation (repo : String) (weeks : List Nat)
  | monthly (buckets : List (String × Nat))
deriving DecidableEq

/-- components/ActivityGraph.tsx fetchActivityData as a function of the
fetched repository list (none when the repository fetch was non-ok or
threw) and of each repository's participation fetch outcome. -/
def activityAggregate (reposFetch : Option (List ARepo))
    (p : String → Option (List Nat)) : ActivityOutcome :=
  match reposFetch with
  | none => ActivityOutcome.fetchError
  | some repos =>
    if repos.isEmpty then ActivityOutcome.empty
    else
      let nonFork := repos.filter (fun r => !r.fork)
      if nonFork.isEmpty then ActivityOutcome.empty
      else
        match (scanRepos p nonFork (min nonFork.length 3)).1 with
        | some nw => ActivityOutcome.participation nw.1 nw.2
        | none => ActivityOutcome.monthly (monthlyBuckets repos)

/-- JavaScript number arithmetic on the values reachable in the
language-percentage computation: exact rational arithmetic for finite
values, with NaN and the infinities explicit. -/
inductive JSVal where
  | num (q : ℚ)
  | nan
  | posInf
  | negInf
deriving DecidableEq

/-- JavaScript division, including division by zero. -/
def jsDiv : JSVal → JSVal → JSVal
  | JSVal.num a, JSVal.num b =>
    if b = 0 then
      (if a = 0 then JSVal.nan else if 0 < a then JSVal.posInf else JSVal.negInf)
    else JSVal.num (a / b)
  | JSVal.nan, _ => JSVal.nan
  | _, JSVal.nan => JSVal.nan
  | JSVal.posInf, JSVal.posInf => JSVal.nan
  | JSVal.posInf, JSVal.negInf => JSVal.nan
  | JSVal.negInf, JSVal.posInf => JSVal.nan
  | JSVal.negInf, JSVal.negInf => JSVal.nan
  | JSVal.posInf, JSVal.num b => if 0 ≤ b then JSVal.posInf else JSVal.negInf
  | JSVal.negInf, JSVal.num b => if 0 ≤ b then JSVal.negInf else JSVal.posInf
  | JSVal.num _, JSVal.posInf => JSVal.num 0
  | JSVal.num _, JSVal.negInf => JSVal.num 0

/-- JavaScript multiplication. -/
def jsMul : JSVal → JSVal → JSVal
  | JSVal.num a, JSVal.num b => JSVal.num (a * b)
  | JSVal.nan, _ => JSVal.nan
  | _, JSVal.nan => JSVal.nan
  | JSVal.posInf, JSVal.posInf => JSVal.posInf
  | JSVal.posInf, JSVal.negInf => JSVal.negInf
  | JSVal.negInf, JSVal.posInf => JSVal.negInf
  | JSVal.negInf, JSVal.negInf => JSVal.posInf
  | JSVal.posInf, JSVal.num b =>
    if b = 0 then JSVal.nan else if 0 < b then JSVal.posInf else JSVal.negInf
  | JSVal.num a, JSVal.posInf =>
    if a = 0 then JSVal.nan else if 0 < a then JSVal.posInf else JSVal.negInf
  | JSVal.negInf, JSVal.num b =>
    if b = 0 then JSVal.nan else if 0 < b then JSVal.negInf else JSVal.posInf
  | JSVal.num a, JSVal.negInf =>
    if a = 0 then JSVal.nan else if 0 < a then JSVal.negInf else JSVal.posInf

/-- Math.round: half rounds toward positive infinity on finite values;
NaN and the infinities pass through. -/
def jsRound : JSVal → JSVal
  | JSVal.num q => JSVal.num ((round q : ℤ) : ℚ)
  | v => v

/-- One output entry of calculateLanguagePercentages. -/
structure LangPct where
  language : String
  percentage : JSVal
  bytes : Nat
deriving DecidableEq

/-- app/[username]/projects/[repo]/page.tsx lines 233 to 243: sum the byte
counts, then map every language to Math.round((bytes / total) * 100).
The division is not guarded against a zero total. -/
def calculateLanguagePercentages (languages : List (String × Nat)) : List LangPct :=
  let total : Nat := languages.foldl (fun sum v => sum + v.2) 0
  languages.map (fun lv =>
    { language := lv.1
      percentage :=
        jsRound (jsMul (jsDiv (JSVal.num (lv.2 : ℚ)) (JSVal.num (total : ℚ)))
          (JSVal.num 100))
      bytes := lv.2 })

/-- app/[username]/projects/[repo]/page.tsx line 499: the languages
section renders exactly when Object.keys(languages).length > 0. -/
def languagesSectionShown (languages : List (String × Nat)) : Bool :=
  0 < languages.length

/-- Equality tests on strings are symmetric. -/
theorem strBeq_comm (a b : String) : (a == b) = (b == a) := by
  by_cases h : a = b
  · subst h; rfl
  · rw [beq_eq_false_iff_ne.mpr h, beq_eq_false_iff_ne.mpr (Ne.symm h)]

theorem dedupByFirst_filter_key {α : Type} (key : α → String) (k : String) :
    ∀ l : List α,
      (dedupByFirst key l).filter (fun x => !(key x == k)) =
        dedupByFirst key (l.filter (fun x => !(key x == k)))
  | [] => rfl
  | a :: rest => by
    by_cases h : key a = k
    · subst h
      have ha : (!(key a == key a)) = false := by simp
      simp only [dedupByFirst, List.filter_cons, ha, if_false, List.filter_filter]
      rw [show (fun x => !(key x == key a) && !(key x == key a)) = (fun x => !(key x == key a))
        from funext (fun x => by cases hx : (key x == key a) <;> simp [hx])]
      exact dedupByFirst_filter_key key (key a) rest
    · have ha : (!(key a == k)) = true := by simp [h]
      simp only [dedupByFirst, List.filter_cons, ha, if_true, List.filter_filter]
      rw [← dedupByFirst_filter_key key k rest]
      simp only [dedupByFirst, List.filter_filter]
      rw [show (fun x => !(key x == k) && !(key x == key a)) = (fun x => !(key x == key a) && !(key x == k))
        from funext (fun x => by cases h1 : (key x == k) <;> cases h2 : (key x == key a) <;> simp [h1, h2])]

theorem foldl_insertBy {α : Type} (key : α → String) :
    ∀ (l acc : List α),
      l.foldl (insertBy key) acc =
        acc ++ dedupByFirst key (l.filter (fun c => !(acc.any (fun x => key x == key c))))
  | [], acc => by simp [dedupByFirst]
  | c :: rest, acc => by
    simp only [List.foldl_cons, List.filter_cons]
    by_cases h : acc.any (fun x => key x == key c)
    · have h1 : insertBy key acc c = acc := by simp [insertBy, h]
      rw [h1, if_neg (show ¬ ((!(acc.any fun x => key x == key c)) = true) by simp [h])]
      exact foldl_insertBy key rest acc
    · have h1 : insertBy key acc c = acc ++ [c] := by simp [insertBy, h]
      rw [h1, if_pos (show (!(acc.any fun x => key x == key c)) = true by simp [h]),
        foldl_insertBy key rest (acc ++ [c])]
      have hpred : (fun x => !((acc ++ [c]).any (fun y => key y == key x)))
          = (fun x => !(key x == key c) && !(acc.any (fun y => key y == key x))) := by
        funext x
        rw [List.any_append]
        simp only [List.any_cons, List.any_nil, Bool.or_false, Bool.not_or]
        rw [strBeq_comm (key c) (key x)]
        cases h1 : (key x == key c) <;> cases h2 : acc.any (fun y => key y == key x) <;> simp [h1, h2]
      rw [hpred]
      have hsplit : rest.filter (fun x => !(key x == key c) && !(acc.any (fun y => key y == key x)))
          = (rest.filter (fun x => !(acc.any (fun y => key y == key x)))).filter
              (fun x => !(key x == key c)) := by
        rw [List.filter_filter]
      rw [hsplit, ← dedupByFirst_filter_key]
      simp [dedupByFirst]

theorem find?_filter_beq {α : Type} (p q : α → Bool) :
    ∀ l : List α, (l.filter q).find? p = l.find? (fun x => q x && p x)
  | [] => rfl
  | a :: l => by
    by_cases hq : q a
    · by_cases hp : p a
      · simp only [List.filter_cons, hq, if_true, List.find?_cons, hp, Bool.true_and]
      · simp only [List.filter_cons, hq, if_true, List.find?_cons, hp, Bool.and_false]
        exact find?_filter_beq p q l
    · simp only [List.filter_cons, hq, if_false, List.find?_cons, Bool.false_and]
      exact find?_filter_beq p q l

theorem dedupByFirst_find? {α : Type} (key : α → String) (k : String) :
    ∀ l : List α,
      (dedupByFirst key l).find? (fun x => key x == k) = l.find? (fun x => key x == k)
  | [] => rfl
  | a :: rest => by
    by_cases h : key a = k
    · have ha : (key a == k) = true := by simp [h]
      simp only [dedupByFirst, List.find?_cons, ha]
    · have ha : (key a == k) = false := beq_eq_false_iff_ne.mpr h
      simp only [dedupByFirst, List.find?_cons, ha]
      rw [find?_filter_beq]
      rw [show (fun x => (!(key x == key a)) && (key x == k)) = (fun x => key x == k)
        from funext (fun x => by
          by_cases hx : key x = k
          · have h1 : (key x == key a) = false := beq_eq_false_iff_ne.mpr (by rw [hx]; exact fun hc => h hc.symm)
            simp [h1]
          · have h2 : (key x == k) = false := beq_eq_false_iff_ne.mpr hx
            simp [h2])]
      exact dedupByFirst_find? key k rest

theorem dedupByFirst_sublist {α : Type} (key : α → String) :
    ∀ l : List α, (dedupByFirst key l).Sublist l
  | [] => List.Sublist.refl []
  | a :: rest =>
    List.Sublist.cons₂ a ((List.filter_sublist _).trans (dedupByFirst_sublist key rest))

theorem nodup_map_key_dedupByFirst {α : Type} (key : α → String) :
    ∀ l : List α, ((dedupByFirst key l).map key).Nodup
  | [] => by simp [dedupByFirst]
  | a :: rest => by
    simp only [dedupByFirst, List.map_cons, List.nodup_cons]
    constructor
    · intro hmem
      rcases List.mem_map.mp hmem with ⟨x, hx, hkey⟩
      have hpx := (List.mem_filter.mp hx).2
      rw [hkey] at hpx
      simp at hpx
    · exact List.Nodup.sublist (List.Sublist.map key (List.filter_sublist _))
        (nodup_map_key_dedupByFirst key rest)

theorem foldl_add_init {α : Type} (f : α → Nat) :
    ∀ (l : List α) (a : Nat),
      l.foldl (fun s v => s + f v) a = a + l.foldl (fun s v => s + f v) 0
  | [], a => by simp
  | x :: l, a => by
    simp only [List.foldl_cons]
    rw [foldl_add_init f l (a + f x), foldl_add_init f l (0 + f x)]
    omega

theorem foldl_add_eq_zero {α : Type} (f : α → Nat) :
    ∀ (l : List α), l.foldl (fun s v => s + f v) 0 = 0 → ∀ x ∈ l, f x = 0
  | [] => by simp
  | y :: l => by
    intro h x hx
    rw [List.foldl_cons, foldl_add_init] at h
    rcases List.mem_cons.mp hx with rfl | hmem
    · omega
    · exact foldl_add_eq_zero f l (by omega) x hmem

theorem extractSkills_foldl :
    ∀ (l : List Repo) (acc : List String),
      l.foldl
        (fun acc r =>
          match r.language with
          | some s => if s == "" then acc else insertBy id acc s
          | none => acc)
        acc
      = (truthyLangs l).foldl (insertBy id) acc
  | [], _ => rfl
  | r :: rest, acc => by
    simp only [List.foldl_cons, truthyLangs, List.filterMap_cons]
    cases hl : r.language with
    | none => exact extractSkills_foldl rest acc
    | some s =>
      by_cases hs : (s == "") = true
      · simp only [hs, if_true, if_pos hs]
        exact extractSkills_foldl rest acc
      · simp only [hs, if_false, if_neg hs, List.foldl_cons]
        exact extractSkills_foldl rest (insertBy id acc s)

theorem addCands_eq (selfLogin reason : String) :
    ∀ (s : List RawCand) (acc : List SimilarUser),
      addCands selfLogin reason acc s
        = (taggedCands selfLogin s reason).foldl (insertBy SimilarUser.login) acc
  | [], _ => rfl
  | c :: rest, acc => by
    simp only [addCands, List.foldl_cons, taggedCands, List.filter_cons]
    by_cases h : (c.login == selfLogin) = true
    · simp only [h, if_true, Bool.not_true, if_neg (by simp : ¬ (false = true))]
      exact addCands_eq selfLogin reason rest acc
    · simp only [h, if_false, Bool.not_false, if_pos rfl, List.map_cons, List.foldl_cons]
      exact addCands_eq selfLogin reason rest _

theorem mergeSimilar_eq (selfLogin : String) (s1 s2 s3 : List RawCand)
    (r1 r2 r3 : String) :
    mergeSimilar selfLogin s1 s2 s3 r1 r2 r3
      = dedupByFirst SimilarUser.login
          (taggedCands selfLogin s1 r1 ++ taggedCands selfLogin s2 r2
            ++ taggedCands selfLogin s3 r3) := by
  unfold mergeSimilar
  rw [addCands_eq, addCands_eq, addCands_eq, ← List.foldl_append, ← List.foldl_append]
  rw [foldl_insertBy]
  simp

theorem taggedCands_name_none (selfLogin : String) (s : List RawCand) (reason : String) :
    ∀ su ∈ taggedCands selfLogin s reason, su.name = none := by
  intro su hsu
  rcases List.mem_map.mp hsu with ⟨c, _, rfl⟩
  rfl

theorem scanRepos_spec (p : String → Option (List Nat)) :
    ∀ (l : List ARepo) (n : Nat),
      scanRepos p l n
        = ((l.take n).findSome? (pickParticipation p), consultedTrace p (l.take n))
  | [], 0 => rfl
  | [], _ + 1 => rfl
  | _ :: _, 0 => rfl
  | r :: rest, n + 1 => by
    simp only [scanRepos, List.take_succ_cons]
    cases hp : p r.full_name with
    | none =>
      rw [scanRepos_spec p rest n]
      simp [List.findSome?_cons, consultedTrace, pickParticipation, hp]
    | some owner =>
      by_cases h : owner.any (fun v => 0 < v)
      · simp [h, List.findSome?_cons, consultedTrace, pickParticipation, hp]
      · rw [scanRepos_spec p rest n]
        simp [List.findSome?_cons, consultedTrace, pickParticipation, hp, h]

/-- C4: the credential resolver is a pure function of the server
configuration and the caller input: a present (truthy) server-side
credential is always returned regardless of the caller-supplied one; when
only the caller-supplied credential is present that one is returned; when
neither is present the result is absent.  Both resolver variants
(lib/githubService.ts and lib/githubToken.ts) satisfy the contract. -/
theorem C4_credential_resolver_priority :
    (∀ s c, jsTruthy s = true → GithubService.getGitHubToken s c = s) ∧
    (∀ s c, jsTruthy s = false → jsTruthy c = true → GithubService.getGitHubToken s c = c) ∧
    (∀ s c, jsTruthy s = false → jsTruthy c = false → GithubService.getGitHubToken s c = none) ∧
    (∀ s e st, jsTruthy e = true → GithubToken.getGitHubToken false s e st = e) ∧
    (∀ s e st, jsTruthy e = false → GithubToken.getGitHubToken false s e st = st) ∧
    (∀ s e, jsTruthy e = false → GithubToken.getGitHubToken false s e none = none) ∧
    (∀ s e st, jsTruthy s = true → GithubToken.getGitHubToken true s e st = s) ∧
    (∀ s e st, jsTruthy s = false → GithubToken.getGitHubToken true s e st = none) := by
  refine ⟨fun s c h => ?_, fun s c h1 h2 => ?_, fun s c h1 h2 => ?_, fun s e st h => ?_,
    fun s e st h => ?_, fun s e h => ?_, fun s e st h => ?_, fun s e st h => ?_⟩ <;>
  simp [GithubService.getGitHubToken, GithubToken.getGitHubToken, *]

/-- Witness for C4 at concrete inputs. -/
theorem C4_credential_resolver_priority_witness :
    GithubService.getGitHubToken (some "srv") (some "cli") = some "srv" ∧
    GithubService.getGitHubToken none (some "cli") = some "cli" ∧
    GithubService.getGitHubToken (some "") none = none ∧
    GithubToken.getGitHubToken false none none (some "stored") = some "stored" ∧
    GithubToken.getGitHubToken false none none none = none :=
  ⟨C4_credential_resolver_priority.1 (some "srv") (some "cli") (by decide),
   C4_credential_resolver_priority.2.1 none (some "cli") (by decide) (by decide),
   C4_credential_resolver_priority.2.2.1 (some "") none (by decide) (by decide),
   C4_credential_resolver_priority.2.2.2.2.1 none none (some "stored") (by decide),
   C4_credential_resolver_priority.2.2.2.2.2.1 none none (by decide)⟩

/-- C3: a profile fetch failing with the not-found status is fatal: the
run records the not-found error, stores no user data, and issues neither
the repository-list fetch nor any later call. -/
theorem C3_profile_not_found_short_circuits
    (clientToken envPublicToken : Option String) (userResp : HttpResp)
    (user : GitHubUserM) (reposData : List Repo) (graphql : GraphqlOutcome) (now : Nat)
    (hok : userResp.ok = false) (hstatus : userResp.status = 404) :
    (fetchGitHubProfile clientToken envPublicToken userResp user reposData graphql now).error
        = some ("User not found (" ++ toString userResp.status ++ ")") ∧
    (fetchGitHubProfile clientToken envPublicToken userResp user reposData graphql now).userData
        = none ∧
    (fetchGitHubProfile clientToken envPublicToken userResp user reposData graphql now).reposFetchIssued
        = false ∧
    (fetchGitHubProfile clientToken envPublicToken userResp user reposData graphql now).graphqlIssued
        = false := by
  refine ⟨?_, ?_, ?_, ?_⟩ <;> simp [fetchGitHubProfile, hok, hstatus]

/-- Witness for C3 at a concrete 404 response. -/
theorem C3_profile_not_found_witness :
    (fetchGitHubProfile none none ⟨false, 404⟩ ⟨"nosuchuser"⟩ [] (Except.ok []) 0).error
        = some "User not found (404)" ∧
    (fetchGitHubProfile none none ⟨false, 404⟩ ⟨"nosuchuser"⟩ [] (Except.ok []) 0).userData
        = none ∧
    (fetchGitHubProfile none none ⟨false, 404⟩ ⟨"nosuchuser"⟩ [] (Except.ok []) 0).reposFetchIssued
        = false := by
  have h := C3_profile_not_found_short_circuits none none ⟨false, 404⟩ ⟨"nosuchuser"⟩ []
    (Except.ok []) 0 rfl rfl
  refine ⟨?_, h.2.1, h.2.2.1⟩
  rw [h.1]
  rfl

/-- C1 counterexample: a run of the profile page aggregator with no
credential at all (no localStorage token and no public environment token)
still issues the GraphQL pinned-items query, with the interpolated header
text Bearer undefined — the stage is not skipped. -/
theorem C1_counterexample_unconditional_graphql :
    (fetchGitHubProfile none none ⟨true, 200⟩ ⟨"octocat"⟩ [] (Except.ok []) 0).graphqlIssued
        = true ∧
    (fetchGitHubProfile none none ⟨true, 200⟩ ⟨"octocat"⟩ [] (Except.ok []) 0).graphqlAuthHeader
        = some "Bearer undefined" :=
  ⟨rfl, rfl⟩

/-- C1 amended: the credential guard on the GraphQL pinned stage exists
only in the PinnedRepos component, where the query is issued exactly when
the or-else of environment and caller token is truthy; the profile page
aggregator issues the GraphQL query on every run whose profile fetch
succeeded, regardless of credentials. -/
theorem C1_amended_graphql_guard :
    (∀ envToken clientToken, jsTruthy (jsOr envToken clientToken) = false →
        pinnedReposGraphQLAuth envToken clientToken = none) ∧
    (∀ envToken clientToken, jsTruthy (jsOr envToken clientToken) = true →
        (pinnedReposGraphQLAuth envToken clientToken).isSome = true) ∧
    (∀ clientToken envPublicToken userResp user reposData graphql now,
        userResp.ok = true →
        (fetchGitHubProfile clientToken envPublicToken userResp user reposData graphql
            now).graphqlIssued = true) := by
  refine ⟨?_, ?_, ?_⟩
  · intro e c h
    unfold pinnedReposGraphQLAuth
    cases hj : jsOr e c with
    | none => rfl
    | some t =>
      rw [hj] at h
      have ht : t = "" := by
        simp only [jsTruthy] at h
        simpa using h
      simp [ht]
  · intro e c h
    unfold pinnedReposGraphQLAuth
    cases hj : jsOr e c with
    | none => rw [hj] at h; simp [jsTruthy] at h
    | some t =>
      rw [hj] at h
      have ht : ¬ t = "" := by
        simp only [jsTruthy] at h
        simpa using h
      simp [ht]
  · intro ct e ur u rd g now h
    simp [fetchGitHubProfile, h]

/-- Witness for the C1 amended theorem at concrete inputs. -/
theorem C1_amended_graphql_guard_witness :
    pinnedReposGraphQLAuth none none = none ∧
    (pinnedReposGraphQLAuth (some "tok") none).isSome = true ∧
    (fetchGitHubProfile none none ⟨true, 200⟩ ⟨"u"⟩ [] (Except.ok []) 0).graphqlIssued = true :=
  ⟨C1_amended_graphql_guard.1 none none (by decide),
   C1_amended_graphql_guard.2.1 (some "tok") none (by decide),
   C1_amended_graphql_guard.2.2 none none ⟨true, 200⟩ ⟨"u"⟩ [] (Except.ok []) 0 rfl⟩

/-- C5 counterexample: a repository whose language is the empty string has
a non-null language value, yet the derived skills list omits it — the
skills loop tests JavaScript truthiness, not nullability. -/
theorem C5_counterexample_empty_string_language :
    (⟨"r", false, 0, 0, 0, 0, 0, none, some "", []⟩ : Repo).language ≠ none ∧
    extractSkills [⟨"r", false, 0, 0, 0, 0, 0, none, some "", []⟩] = [] :=
  ⟨by decide, rfl⟩

/-- C5 amended: the skills list equals the truthy (non-null and non-empty)
language values deduplicated keeping first appearances, truncated to 6;
hence it has no duplicate entries and length at most 6, and an empty
repository list yields an empty skills list rather than a failure. -/
theorem C5_amended_skills_shape (reposData : List Repo) :
    extractSkills reposData = (dedupByFirst id (truthyLangs reposData)).take 6 ∧
    (extractSkills reposData).Nodup ∧
    (extractSkills reposData).length ≤ 6 ∧
    extractSkills [] = [] := by
  have hchar : extractSkills reposData = (dedupByFirst id (truthyLangs reposData)).take 6 := by
    unfold extractSkills
    rw [extractSkills_foldl, foldl_insertBy]
    simp
  refine ⟨hchar, ?_, ?_, rfl⟩
  · rw [hchar]
    have hnodup : (dedupByFirst id (truthyLangs reposData)).Nodup := by
      have h := nodup_map_key_dedupByFirst id (truthyLangs reposData)
      rwa [List.map_id] at h
    exact List.Nodup.sublist (List.take_sublist _ _) hnodup
  · rw [hchar]
    exact List.length_take_le _ _

/-- C6: a pinned item whose name matches no REST repository (exact,
case-sensitive name comparison) reconciles to a featured entry with an
absent homepage and the current time as placeholder timestamps, and the
reconciliation of a whole pinned list is total: exactly one featured
entry per pinned item, no failure. -/
theorem C6_unmatched_pinned_placeholders (reposData : List Repo) (now : Nat)
    (item : PinnedItem) (h : ∀ r ∈ reposData, r.name ≠ item.name) :
    (formatPinnedItem reposData now item).homepage = none ∧
    (formatPinnedItem reposData now item).created_at = now ∧
    (formatPinnedItem reposData now item).updated_at = now ∧
    (formatPinnedItem reposData now item).pushed_at = now ∧
    ∀ items : List PinnedItem,
      (items.map (formatPinnedItem reposData now)).length = items.length := by
  have hfind : reposData.find? (fun repo => repo.name == item.name) = none :=
    List.find?_eq_none.mpr (fun r hr => by simp [h r hr])
  refine ⟨?_, ?_, ?_, ?_, fun items => by simp⟩ <;>
    simp [formatPinnedItem, hfind]

/-- Witness for C6 at a concrete unmatched pinned item. -/
theorem C6_unmatched_pinned_witness :
    (formatPinnedItem [⟨"other", false, 9, 9, 1, 2, 3, some "h", some "Go", []⟩] 777
        ⟨"solo", none, "https://x", 1, 2, some "Rust", ["t"], "o", "a"⟩).homepage = none ∧
    (formatPinnedItem [⟨"other", false, 9, 9, 1, 2, 3, some "h", some "Go", []⟩] 777
        ⟨"solo", none, "https://x", 1, 2, some "Rust", ["t"], "o", "a"⟩).created_at = 777 ∧
    (formatPinnedItem [⟨"other", false, 9, 9, 1, 2, 3, some "h", some "Go", []⟩] 777
        ⟨"solo", none, "https://x", 1, 2, some "Rust", ["t"], "o", "a"⟩).pushed_at = 777 := by
  have h := C6_unmatched_pinned_placeholders
    [⟨"other", false, 9, 9, 1, 2, 3, some "h", some "Go", []⟩] 777
    ⟨"solo", none, "https://x", 1, 2, some "Rust", ["t"], "o", "a"⟩ (by decide)
  exact ⟨h.1, h.2.1, h.2.2.2.1⟩

/-- C2 counterexample: a run whose GraphQL stage throws yields zero pinned
items from stage 1, but the catch block installs the non-fork star-sorted
top 6 as the pinned list, so the rendered featured list is not the
non-fork pushed_at-sorted top 4 the claim requires. -/
theorem C2_counterexample_thrown_graphql :
    featuredFor (fetchGitHubProfile none none ⟨true, 200⟩ ⟨"u"⟩
        [⟨"alpha", false, 1, 0, 0, 0, 100, none, none, []⟩,
         ⟨"beta", false, 5, 0, 0, 0, 50, none, none, []⟩]
        (Except.error ()) 0)
      = FeaturedOutcome.featured
          [⟨"beta", false, 5, 0, 0, 0, 50, none, none, []⟩,
           ⟨"alpha", false, 1, 0, 0, 0, 100, none, none, []⟩] ∧
    FeaturedOutcome.featured
        [⟨"beta", false, 5, 0, 0, 0, 50, none, none, []⟩,
         ⟨"alpha", false, 1, 0, 0, 0, 100, none, none, []⟩]
      ≠ FeaturedOutcome.featured
          ((sortDescBy (fun r => r.pushed_at)
            (([⟨"alpha", false, 1, 0, 0, 0, 100, none, none, []⟩,
               ⟨"beta", false, 5, 0, 0, 0, 50, none, none, []⟩] : List Repo).filter
              (fun r => !r.fork))).take 4) :=
  ⟨by decide, by decide⟩

/-- C2 amended: when stage 1 completes without throwing and yields zero
pinned items (no usable credential, a non-ok GraphQL response body, or an
empty pin list), the rendered featured list is the REST list filtered to
non-forks, sorted descending by pushed_at, truncated to 4 — or the
explicit no-repositories state when the REST list is empty; when the
GraphQL stage throws, the catch instead installs the non-fork star-sorted
top 6 as the featured list. -/
theorem C2_amended_fallback_chain :
    (∀ clientToken envPublicToken userResp user reposData now,
        userResp.ok = true →
        featuredFor (fetchGitHubProfile clientToken envPublicToken userResp user reposData
            (Except.ok []) now)
          = (if reposData.isEmpty then FeaturedOutcome.noRepos
             else FeaturedOutcome.featured
               ((sortDescBy (fun r => r.pushed_at)
                 (reposData.filter (fun r => !r.fork))).take 4))) ∧
    (∀ clientToken envPublicToken userResp user reposData now,
        userResp.ok = true →
        (fetchGitHubProfile clientToken envPublicToken userResp user reposData
            (Except.error ()) now).pinnedRepos
          = (sortDescBy (fun r => r.stargazers_count)
              (reposData.filter (fun r => !r.fork))).take 6) := by
  constructor
  · intro ct e ur u rd now h
    by_cases hrd : rd.isEmpty <;>
      simp [fetchGitHubProfile, h, featuredFor, hrd]
  · intro ct e ur u rd now h
    simp [fetchGitHubProfile, h]

/-- Witness for the C2 amended theorem at a concrete run. -/
theorem C2_amended_fallback_chain_witness :
    featuredFor (fetchGitHubProfile none none ⟨true, 200⟩ ⟨"u"⟩
        [⟨"alpha", false, 1, 0, 0, 0, 100, none, none, []⟩,
         ⟨"beta", false, 5, 0, 0, 0, 50, none, none, []⟩]
        (Except.ok []) 0)
      = FeaturedOutcome.featured
          [⟨"alpha", false, 1, 0, 0, 0, 100, none, none, []⟩,
           ⟨"beta", false, 5, 0, 0, 0, 50, none, none, []⟩] := by
  have h := C2_amended_fallback_chain.1 none none ⟨true, 200⟩ ⟨"u"⟩
    [⟨"alpha", false, 1, 0, 0, 0, 100, none, none, []⟩,
     ⟨"beta", false, 5, 0, 0, 0, 50, none, none, []⟩] 0 rfl
  rw [h]
  decide

/-- C7: similar-profiles discovery deduplicates by login with the first
discovering strategy's reason winning: the merged map's entry for any
login is the first tagged candidate carrying that login across the three
strategies in source order; the result is capped at 6 candidates with
pairwise-distinct logins whose login and reason are exactly those of the
first 6 merged candidates (enrichment drops no candidate); and a
candidate whose display-name enrichment failed keeps a null name. -/
theorem C7_similar_profiles_dedup (selfLogin : String) (s1 s2 s3 : List RawCand)
    (r1 r2 r3 : String) (enrich : String → Option (Option String)) :
    ((findSimilarProfiles selfLogin s1 s2 s3 r1 r2 r3 enrich).map SimilarUser.login).Nodup ∧
    (∀ k, (mergeSimilar selfLogin s1 s2 s3 r1 r2 r3).find? (fun su => su.login == k)
        = (taggedCands selfLogin s1 r1 ++ taggedCands selfLogin s2 r2
            ++ taggedCands selfLogin s3 r3).find? (fun su => su.login == k)) ∧
    (findSimilarProfiles selfLogin s1 s2 s3 r1 r2 r3 enrich).length ≤ 6 ∧
    (findSimilarProfiles selfLogin s1 s2 s3 r1 r2 r3 enrich).map
        (fun su => (su.login, su.similarity_reason))
      = ((mergeSimilar selfLogin s1 s2 s3 r1 r2 r3).take 6).map
          (fun su => (su.login, su.similarity_reason)) ∧
    (∀ su ∈ findSimilarProfiles selfLogin s1 s2 s3 r1 r2 r3 enrich,
        enrich su.login = none → su.name = none) := by
  have hmerge := mergeSimilar_eq selfLogin s1 s2 s3 r1 r2 r3
  have hstep_login : ∀ su : SimilarUser,
      (match enrich su.login with
        | some nm => { su with name := nm }
        | none => su).login = su.login := by
    intro su; cases enrich su.login <;> rfl
  have hmap_login :
      (findSimilarProfiles selfLogin s1 s2 s3 r1 r2 r3 enrich).map SimilarUser.login
        = ((mergeSimilar selfLogin s1 s2 s3 r1 r2 r3).take 6).map SimilarUser.login := by
    unfold findSimilarProfiles
    rw [List.map_map]
    exact List.map_congr_left (fun su _ => hstep_login su)
  have hnodup_merged :
      ((mergeSimilar selfLogin s1 s2 s3 r1 r2 r3).map SimilarUser.login).Nodup := by
    rw [hmerge]
    exact nodup_map_key_dedupByFirst _ _
  refine ⟨?_, ?_, ?_, ?_, ?_⟩
  · rw [hmap_login]
    exact List.Nodup.sublist (List.Sublist.map _ (List.take_sublist _ _)) hnodup_merged
  · intro k
    rw [hmerge]
    exact dedupByFirst_find? _ k _
  · unfold findSimilarProfiles
    rw [List.length_map]
    exact List.length_take_le _ _
  · unfold findSimilarProfiles
    rw [List.map_map]
    refine List.map_congr_left (fun su _ => ?_)
    simp only [Function.comp_apply]
    cases henr : enrich su.login <;> simp [henr]
  · intro su hsu henrich
    unfold findSimilarProfiles at hsu
    rcases List.mem_map.mp hsu with ⟨su0, h0, heq⟩
    have hlog : su.login = su0.login := by
      rw [← heq]; exact hstep_login su0
    rw [hlog] at henrich
    have hsu_eq : su = su0 := by
      rw [← heq]
      simp only [henrich]
    rw [hsu_eq]
    have hmem_merged : su0 ∈ mergeSimilar selfLogin s1 s2 s3 r1 r2 r3 :=
      List.mem_of_mem_take h0
    rw [hmerge] at hmem_merged
    have hmem_all : su0 ∈ taggedCands selfLogin s1 r1 ++ taggedCands selfLogin s2 r2
        ++ taggedCands selfLogin s3 r3 :=
      (dedupByFirst_sublist _ _).subset hmem_merged
    rcases List.mem_append.mp hmem_all with h12 | h3
    · rcases List.mem_append.mp h12 with h1 | h2
      · exact taggedCands_name_none _ _ _ su0 h1
      · exact taggedCands_name_none _ _ _ su0 h2
    · exact taggedCands_name_none _ _ _ su0 h3

/-- Witness for C7: the login amy is discovered by both strategy 1 and
strategy 2; the result keeps exactly one amy entry with the strategy-1
reason, and the failed enrichment leaves null display names. -/
theorem C7_similar_profiles_witness :
    findSimilarProfiles "self" [⟨"amy", "a1", "u1"⟩]
        [⟨"amy", "a2", "u2"⟩, ⟨"bob", "b1", "v1"⟩] [] "L1" "L2" "L3"
        (fun _ => none)
      = [⟨"amy", "a1", "u1", none, "L1"⟩, ⟨"bob", "b1", "v1", none, "L2"⟩] ∧
    (mergeSimilar "self" [⟨"amy", "a1", "u1"⟩]
        [⟨"amy", "a2", "u2"⟩, ⟨"bob", "b1", "v1"⟩] [] "L1" "L2" "L3").find?
        (fun su => su.login == "amy")
      = some ⟨"amy", "a1", "u1", none, "L1"⟩ ∧
    (⟨"amy", "a1", "u1", none, "L1"⟩ : SimilarUser).name = none := by
  have h := C7_similar_profiles_dedup "self" [⟨"amy", "a1", "u1"⟩]
    [⟨"amy", "a2", "u2"⟩, ⟨"bob", "b1", "v1"⟩] [] "L1" "L2" "L3" (fun _ => none)
  refine ⟨by decide, ?_, ?_⟩
  · rw [h.2.1 "amy"]
    decide
  · exact h.2.2.2.2 ⟨"amy", "a1", "u1", none, "L1"⟩ (by decide) rfl

/-- C8: with a non-zero byte total each language maps to the exact
rounded percentage round(bytes / total * 100); on byte counts A 30 and
B 70 the output percentages are 30 and 70; on A, B, C each 1 byte the
output percentages are 33, 33, 33 — their sum is 99, within the accepted
99-or-100 range, and no drift correction is applied. -/
theorem C8_language_percentages
    (languages : List (String × Nat))
    (htotal : languages.foldl (fun sum v => sum + v.2) 0 ≠ 0) :
    calculateLanguagePercentages languages
      = languages.map (fun lv =>
          { language := lv.1
            percentage := JSVal.num
              (((round (((lv.2 : Nat) : ℚ)
                  / ((languages.foldl (fun sum v => sum + v.2) 0 : Nat) : ℚ) * 100) : ℤ) : ℚ))
            bytes := lv.2 }) ∧
    calculateLanguagePercentages [("A", 30), ("B", 70)]
      = [⟨"A", JSVal.num 30, 30⟩, ⟨"B", JSVal.num 70, 70⟩] ∧
    (calculateLanguagePercentages [("A", 1), ("B", 1), ("C", 1)]).map LangPct.percentage
      = [JSVal.num 33, JSVal.num 33, JSVal.num 33] ∧
    (33 + 33 + 33 : ℤ) = 99 := by
  have hq : ((languages.foldl (fun sum v => sum + v.2) 0 : Nat) : ℚ) ≠ 0 :=
    Nat.cast_ne_zero.mpr htotal
  refine ⟨?_, ?_, ?_, by norm_num⟩
  · simp only [calculateLanguagePercentages]
    refine List.map_congr_left (fun lv _ => ?_)
    simp [jsDiv, jsMul, jsRound, hq]
  · norm_num [calculateLanguagePercentages, jsDiv, jsMul, jsRound, round_eq,
      List.foldl_cons, List.foldl_nil]
  · norm_num [calculateLanguagePercentages, jsDiv, jsMul, jsRound, round_eq,
      List.foldl_cons, List.foldl_nil]

/-- Witness for C8 at the concrete 30/70 byte counts. -/
theorem C8_language_percentages_witness :
    calculateLanguagePercentages [("A", 30), ("B", 70)]
      = [⟨"A", JSVal.num 30, 30⟩, ⟨"B", JSVal.num 70, 70⟩] :=
  (C8_language_percentages [("A", 30), ("B", 70)] (by decide)).2.1

/-- C10: the percentage computation does not guard the division by the
byte total: for any non-empty language map whose byte counts sum to zero
every computed percentage is the JavaScript NaN — no numeric value, not
zero, and no thrown error — while the only call-site guard is that the
language map itself is non-empty. -/
theorem C10_zero_total_nan (languages : List (String × Nat))
    (hne : languages ≠ [])
    (hzero : languages.foldl (fun sum v => sum + v.2) 0 = 0) :
    (∀ e ∈ calculateLanguagePercentages languages, e.percentage = JSVal.nan) ∧
    (∀ q : ℚ, JSVal.nan ≠ JSVal.num q) ∧
    languagesSectionShown languages = true := by
  have hz : ∀ lv ∈ languages, lv.2 = 0 := by
    intro lv hlv
    exact foldl_add_eq_zero (fun v => v.2) languages hzero lv hlv
  refine ⟨?_, fun q h => JSVal.noConfusion h, ?_⟩
  · intro e he
    simp only [calculateLanguagePercentages, List.mem_map] at he
    rcases he with ⟨lv, hlv, rfl⟩
    have h2 : lv.2 = 0 := hz lv hlv
    simp [h2, hzero, jsDiv, jsMul, jsRound]
  · simp only [languagesSectionShown, decide_eq_true_eq]
    exact List.length_pos.mpr hne

/-- Witness for C10 at a one-language map with zero bytes. -/
theorem C10_zero_total_nan_witness :
    (calculateLanguagePercentages [("A", 0)]).map LangPct.percentage = [JSVal.nan] ∧
    languagesSectionShown [("A", 0)] = true := by
  have h := C10_zero_total_nan [("A", 0)] (by decide) (by decide)
  exact ⟨by decide, h.2.2⟩

/-- C9: the activity aggregator yields the explicit empty-activity state
on an empty repository list (distinct from the fetch-error state); its
scan is exactly a first-match search over at most the first 3 non-fork
repositories, consulting each repository's participation endpoint only up
to and including the first hit; when the scan finds a repository whose
owner weeks contain a non-zero entry that repository's data is the
outcome; when no scanned repository is usable the outcome is the monthly
bucketing of all fetched push timestamps. -/
theorem C9_activity_scan_and_fallback
    (p : String → Option (List Nat)) (repos : List ARepo) :
    activityAggregate none p = ActivityOutcome.fetchError ∧
    activityAggregate (some []) p = ActivityOutcome.empty ∧
    ActivityOutcome.empty ≠ ActivityOutcome.fetchError ∧
    (∀ n, scanRepos p repos n
        = ((repos.take n).findSome? (pickParticipation p),
           consultedTrace p (repos.take n))) ∧
    (∀ rName weeks,
        ((repos.filter (fun r => !r.fork)).take 3).findSome? (pickParticipation p)
            = some (rName, weeks) →
        activityAggregate (some repos) p = ActivityOutcome.participation rName weeks) ∧
    (repos ≠ [] → repos.filter (fun r => !r.fork) ≠ [] →
        ((repos.filter (fun r => !r.fork)).take 3).findSome? (pickParticipation p) = none →
        activityAggregate (some repos) p
          = ActivityOutcome.monthly (monthlyBuckets repos)) := by
  have htake : (repos.filter (fun r => !r.fork)).take
        (min (repos.filter (fun r => !r.fork)).length 3)
      = (repos.filter (fun r => !r.fork)).take 3 := by
    rw [min_comm, ← List.take_take, List.take_length]
  refine ⟨rfl, rfl, by decide, scanRepos_spec p repos, ?_, ?_⟩
  · intro rName weeks hfound
    have hne : repos.filter (fun r => !r.fork) ≠ [] := by
      intro hempty
      rw [hempty] at hfound
      simp at hfound
    have hrepos : repos ≠ [] := by
      intro h0
      rw [h0] at hne
      simp at hne
    simp only [activityAggregate]
    rw [if_neg (by simp [List.isEmpty_iff, hrepos]),
      if_neg (by simp [List.isEmpty_iff, hne])]
    rw [scanRepos_spec, htake, hfound]
  · intro hrepos hne hfound
    simp only [activityAggregate]
    rw [if_neg (by simp [List.isEmpty_iff, hrepos]),
      if_neg (by simp [List.isEmpty_iff, hne])]
    rw [scanRepos_spec, htake, hfound]

/-- Witness for C9: a single non-fork repository with no usable
participation falls back to the monthly bucketing, and the same
repository with a non-zero owner week wins the scan. -/
theorem C9_activity_witness :
    activityAggregate (some [⟨"a", "o/a", false, 2024, 5⟩]) (fun _ => none)
      = ActivityOutcome.monthly [("2024-05", 1)] ∧
    activityAggregate (some [⟨"a", "o/a", false, 2024, 5⟩]) (fun _ => some [0, 3])
      = ActivityOutcome.participation "a" [0, 3] := by
  have h1 := (C9_activity_scan_and_fallback (fun _ => none)
      [⟨"a", "o/a", false, 2024, 5⟩]).2.2.2.2.2 (by decide) (by decide) (by decide)
  have h2 := (C9_activity_scan_and_fallback (fun _ => some [0, 3])
      [⟨"a", "o/a", false, 2024, 5⟩]).2.2.2.2.1 "a" [0, 3] (by decide)
  refine ⟨?_, h2⟩
  rw [h1]
  decide
